import Mathlib

/-!
Verification of the heading-analyzer core of `api/analyze.js`:
the pure functions `analyzeHeadingIssues` and `generateImprovedSuggestions`
together with their keyword-pattern classifiers.  The JavaScript source is
embedded shallowly: heading records become a structure over `Nat` and
`String`, the push-loops become list recursions whose accumulator is kept
newest-first (the JavaScript array is the reverse of the accumulator), and
JavaScript string operations (`toLowerCase`, `includes`, the `/\d{4}/`
regex test) become executable functions over `List Char`.
-/

/-- A heading record `{level, text}` as produced by the extractor. -/
structure HeadingRecord where
  level : Nat
  text : String
deriving Repr, DecidableEq

/-- JavaScript `String.prototype.toLowerCase` restricted to the ASCII
case mapping, as a map over the character list. -/
def toLowerCase (s : String) : String :=
  String.mk (s.data.map Char.toLower)

/-- Substring occurrence on character lists: does the second list contain
the first as a contiguous sublist?  Mirrors `String.prototype.includes`. -/
def listContains (pat : List Char) : List Char → Bool
  | [] => pat.isEmpty
  | c :: rest => pat.isPrefixOf (c :: rest) || listContains pat rest

/-- JavaScript `s.includes(pat)`. -/
def strIncludes (s pat : String) : Bool :=
  listContains pat.data s.data

/-- Four consecutive decimal digits somewhere in the list. -/
def hasFourDigitRun : List Char → Bool
  | a :: b :: c :: d :: rest =>
      (a.isDigit && b.isDigit && c.isDigit && d.isDigit) ||
        hasFourDigitRun (b :: c :: d :: rest)
  | _ => false

/-- The JavaScript regex test `/\d{4}/.test(text)` (line 202 of the
source): the text contains a run of four digits. -/
def containsYear (s : String) : Bool :=
  hasFourDigitRun s.data

/-- `isArticleOrGuide` (source lines 196-206). -/
def isArticleOrGuide (text : String) : Bool :=
  let lowerText := toLowerCase text
  strIncludes lowerText "guide" ||
  strIncludes lowerText "how to" ||
  strIncludes lowerText "tutorial" ||
  strIncludes lowerText "tips" ||
  containsYear text ||
  strIncludes lowerText "detection" ||
  strIncludes lowerText "secure" ||
  strIncludes lowerText "automate"

/-- `isSectionTitle` (source lines 208-215). -/
def isSectionTitle (text : String) : Bool :=
  let lowerText := toLowerCase text
  strIncludes lowerText "blog posts" ||
  strIncludes lowerText "articles" ||
  strIncludes lowerText "news" ||
  strIncludes lowerText "updates" ||
  strIncludes lowerText "more"

/-- `isFooterOrCallToAction` (source lines 217-225). -/
def isFooterOrCallToAction (text : String) : Bool :=
  let lowerText := toLowerCase text
  strIncludes lowerText "subscribe" ||
  strIncludes lowerText "contact" ||
  strIncludes lowerText "making every" ||
  strIncludes lowerText "day-in-the-life" ||
  strIncludes lowerText "get started" ||
  strIncludes lowerText "learn more"

/-- `hasRecentArticlesSection` (source lines 227-234): some suggestion has
level 2 and its lowered text contains "article", "blog" or "post".  The
`some` scan is order-independent, so it is applied unchanged to the
newest-first accumulator. -/
def hasRecentArticlesSection (suggestions : List HeadingRecord) : Bool :=
  suggestions.any fun s =>
    s.level == 2 &&
      (strIncludes (toLowerCase s.text) "article" ||
       strIncludes (toLowerCase s.text) "blog" ||
       strIncludes (toLowerCase s.text) "post")

/-- Issue string of source line 99. -/
def noHeadingsIssue : String :=
  "No heading tags found on the page"

/-- Issue string of source line 106. -/
def missingH1Issue : String :=
  "❌ No H1 tag found - every page should have exactly one H1"

/-- Issue string of source line 108 (template literal with the count). -/
def multipleH1Issue (n : Nat) : String :=
  "❌ Multiple H1 tags found (" ++ (toString n ++ ") - should have only one H1 per page")

/-- Issue string of source line 117 (template literal with both levels). -/
def skippedIssue (p c : Nat) : String :=
  "⚠️ Skipped heading level: H" ++
    (toString p ++ (" followed by H" ++ (toString c ++ (" (should use H" ++ (toString (p + 1) ++ ")")))))

/-- Issue string of source line 123. -/
def startIssue : String :=
  "⚠️ Page should start with an H1 heading"

/-- Issue string of source line 131. -/
def orgIssue : String :=
  "💡 Consider adding more H2 sections to better organize your H3 subsections"

/-- The source's inline H1 count `headings.filter(h => h.level === 1).length`
(source line 104). -/
def h1Count (headings : List HeadingRecord) : Nat :=
  (headings.filter fun h => h.level == 1).length

/-- The skip-issue candidate for one adjacent pair, as scanned by the loop
of source lines 112-119. -/
def skipPair (pc : HeadingRecord × HeadingRecord) : Option String :=
  if pc.2.level > pc.1.level + 1 then some (skippedIssue pc.1.level pc.2.level) else none

/-- The skipped-level loop of source lines 112-119: one issue per adjacent
pair `(previous, current)` with `current.level > previous.level + 1`. -/
def skipIssues : List HeadingRecord → List String
  | p :: c :: rest =>
      (if c.level > p.level + 1 then [skippedIssue p.level c.level] else []) ++
        skipIssues (c :: rest)
  | _ => []

/-- `analyzeHeadingIssues` (source lines 95-135).  The sequential pushes
into `issues` become the concatenation of the four blocks in source
order. -/
def analyzeHeadingIssues : List HeadingRecord → List String
  | [] => [noHeadingsIssue]
  | h0 :: rest =>
      let headings := h0 :: rest
      let h1Issues :=
        if h1Count headings == 0 then [missingH1Issue]
        else if h1Count headings > 1 then [multipleH1Issue (h1Count headings)]
        else []
      let skips := skipIssues headings
      let startIssues := if h0.level ≠ 1 then [startIssue] else []
      let h2Count := (headings.filter fun h => h.level == 2).length
      let h3Count := (headings.filter fun h => h.level == 3).length
      let orgIssues := if h3Count > 0 ∧ h2Count < 2 then [orgIssue] else []
      h1Issues ++ skips ++ startIssues ++ orgIssues

/-- One iteration of the suggestion loop (source lines 155-191) acting on
the newest-first accumulator: the JavaScript `previousSuggestion` is the
accumulator's head.  The accumulator is never empty at a call site (the
loop starts after the first push), so the `headD` default is dead. -/
def suggestStep (acc : List HeadingRecord) (h : HeadingRecord) : List HeadingRecord :=
  let previousSuggestion := acc.headD ⟨1, ""⟩
  let isArticleTitle := isArticleOrGuide h.text
  let isSectionHeader := isSectionTitle h.text
  let isFooterContent := isFooterOrCallToAction h.text
  if isSectionHeader then
    ⟨2, h.text⟩ :: acc
  else if isArticleTitle && decide (previousSuggestion.level ≤ 2) then
    ⟨3, h.text⟩ ::
      (if hasRecentArticlesSection acc then acc else ⟨2, "Recent Articles"⟩ :: acc)
  else if isFooterContent then
    ⟨2, h.text⟩ :: acc
  else
    ⟨min h.level (previousSuggestion.level + 1), h.text⟩ :: acc

/-- The suggestion loop over the remaining headings; the final output is
the reversed accumulator. -/
def genLoop (acc : List HeadingRecord) : List HeadingRecord → List HeadingRecord
  | [] => acc.reverse
  | h :: rest => genLoop (suggestStep acc h) rest

/-- `generateImprovedSuggestions` (source lines 137-194). -/
def generateImprovedSuggestions : List HeadingRecord → List HeadingRecord
  | [] =>
      [⟨1, "Add a main page title (H1)"⟩,
       ⟨2, "Add section headings (H2)"⟩,
       ⟨3, "Add subsection headings (H3) as needed"⟩]
  | h0 :: rest => genLoop [⟨1, h0.text⟩] rest

/-- `suggestStep` with the JavaScript hazard made explicit: reading
`.level` off `suggestions[suggestions.length - 1]` throws when the array
is empty, so here the previous suggestion is fetched with `head?` and the
branches that dereference it return `none` when it is absent. -/
def suggestStepOpt (acc : List HeadingRecord) (h : HeadingRecord) : Option (List HeadingRecord) :=
  let isArticleTitle := isArticleOrGuide h.text
  let isSectionHeader := isSectionTitle h.text
  let isFooterContent := isFooterOrCallToAction h.text
  if isSectionHeader then
    some (⟨2, h.text⟩ :: acc)
  else if isArticleTitle &&
      (match acc.head? with
       | some prev => decide (prev.level ≤ 2)
       | none => false) then
    some (⟨3, h.text⟩ ::
      (if hasRecentArticlesSection acc then acc else ⟨2, "Recent Articles"⟩ :: acc))
  else if isFooterContent then
    some (⟨2, h.text⟩ :: acc)
  else
    match acc.head? with
    | some prev => some (⟨min h.level (prev.level + 1), h.text⟩ :: acc)
    | none => none

/-- The suggestion loop built on `suggestStepOpt`. -/
def genLoopOpt (acc : List HeadingRecord) : List HeadingRecord → Option (List HeadingRecord)
  | [] => some acc.reverse
  | h :: rest =>
      match suggestStepOpt acc h with
      | some acc' => genLoopOpt acc' rest
      | none => none

/-- `generateImprovedSuggestions` with every fallible array access made
explicit. -/
def generateImprovedSuggestionsOpt : List HeadingRecord → Option (List HeadingRecord)
  | [] =>
      some
        [⟨1, "Add a main page title (H1)"⟩,
         ⟨2, "Add section headings (H2)"⟩,
         ⟨3, "Add subsection headings (H3) as needed"⟩]
  | h0 :: rest => genLoopOpt [⟨1, h0.text⟩] rest

/-- The skipped-level loop with the index accesses `headings[i]` and
`headings[i - 1]` made explicit: dereferencing an out-of-range index
returns `none`. -/
def skipLoopOpt (hs : List HeadingRecord) (i : Nat) : Option (List String) :=
  if _hlt : i < hs.length then
    match hs[i]?, hs[i - 1]? with
    | some current, some previous =>
        match skipLoopOpt hs (i + 1) with
        | some rest =>
            some ((if current.level > previous.level + 1
                   then [skippedIssue previous.level current.level] else []) ++ rest)
        | none => none
    | _, _ => none
  else some []
termination_by hs.length - i
decreasing_by omega

/-- `analyzeHeadingIssues` with every fallible array access made explicit,
including the short-circuit guard `headings.length > 0` before
`headings[0].level` on source line 122. -/
def analyzeHeadingIssuesOpt (headings : List HeadingRecord) : Option (List String) :=
  if headings.length = 0 then some [noHeadingsIssue]
  else
    let h1Issues :=
      if h1Count headings == 0 then [missingH1Issue]
      else if h1Count headings > 1 then [multipleH1Issue (h1Count headings)]
      else []
    match skipLoopOpt headings 1 with
    | none => none
    | some skips =>
        match
          (if 0 < headings.length then
            match headings[0]? with
            | some first => some (if first.level ≠ 1 then [startIssue] else [])
            | none => none
          else some []) with
        | none => none
        | some startIssues =>
            let h2Count := (headings.filter fun h => h.level == 2).length
            let h3Count := (headings.filter fun h => h.level == 3).length
            let orgIssues := if h3Count > 0 ∧ h2Count < 2 then [orgIssue] else []
            some (h1Issues ++ skips ++ startIssues ++ orgIssues)

example :
    generateImprovedSuggestions
      [⟨1, "Welcome"⟩, ⟨2, "Blog Posts"⟩, ⟨3, "How to Guide 2024"⟩] =
      [⟨1, "Welcome"⟩, ⟨2, "Blog Posts"⟩, ⟨3, "How to Guide 2024"⟩] := by decide

example :
    generateImprovedSuggestions
      [⟨1, "Home"⟩, ⟨2, "Blog Posts"⟩, ⟨1, "Plain"⟩, ⟨3, "How to Guide"⟩] =
      [⟨1, "Home"⟩, ⟨2, "Blog Posts"⟩, ⟨1, "Plain"⟩, ⟨3, "How to Guide"⟩] := by decide

example :
    analyzeHeadingIssues [⟨1, "Home"⟩, ⟨3, "Deep"⟩] =
      [skippedIssue 1 3, orgIssue] := by decide

theorem strNe_of_getElem (s t : String) (n : Nat) (hne : s.data[n]? ≠ t.data[n]?) :
    s ≠ t :=
  fun e => hne (by rw [e])

theorem strGet_append (a b : String) (n : Nat) (hn : n < a.data.length) :
    (a ++ b).data[n]? = a.data[n]? := by
  rw [String.data_append]
  exact List.getElem?_append_left hn

theorem multipleH1Issue_char0 (k : Nat) : (multipleH1Issue k).data[0]? = some '❌' := by
  unfold multipleH1Issue
  rw [strGet_append "❌ Multiple H1 tags found (" _ 0 (by decide)]
  decide

theorem multipleH1Issue_char2 (k : Nat) : (multipleH1Issue k).data[2]? = some 'M' := by
  unfold multipleH1Issue
  rw [strGet_append "❌ Multiple H1 tags found (" _ 2 (by decide)]
  decide

theorem skippedIssue_char0 (p c : Nat) : (skippedIssue p c).data[0]? = some '⚠' := by
  unfold skippedIssue
  rw [strGet_append "⚠️ Skipped heading level: H" _ 0 (by decide)]
  decide

theorem skippedIssue_char3 (p c : Nat) : (skippedIssue p c).data[3]? = some 'S' := by
  unfold skippedIssue
  rw [strGet_append "⚠️ Skipped heading level: H" _ 3 (by decide)]
  decide

theorem multipleH1_ne_missing (k : Nat) : multipleH1Issue k ≠ missingH1Issue := by
  apply strNe_of_getElem _ _ 2
  rw [multipleH1Issue_char2]
  decide

theorem multipleH1_ne_skipped (k p c : Nat) : multipleH1Issue k ≠ skippedIssue p c := by
  apply strNe_of_getElem _ _ 0
  rw [multipleH1Issue_char0, skippedIssue_char0]
  decide

theorem multipleH1_ne_start (k : Nat) : multipleH1Issue k ≠ startIssue := by
  apply strNe_of_getElem _ _ 0
  rw [multipleH1Issue_char0]
  decide

theorem multipleH1_ne_org (k : Nat) : multipleH1Issue k ≠ orgIssue := by
  apply strNe_of_getElem _ _ 0
  rw [multipleH1Issue_char0]
  decide

theorem skipped_ne_missing (p c : Nat) : skippedIssue p c ≠ missingH1Issue := by
  apply strNe_of_getElem _ _ 0
  rw [skippedIssue_char0]
  decide

theorem skipped_ne_start (p c : Nat) : skippedIssue p c ≠ startIssue := by
  apply strNe_of_getElem _ _ 3
  rw [skippedIssue_char3]
  decide

theorem skipped_ne_org (p c : Nat) : skippedIssue p c ≠ orgIssue := by
  apply strNe_of_getElem _ _ 0
  rw [skippedIssue_char0]
  decide

theorem isPrefixOf_append_self : ∀ p q : List Char, p.isPrefixOf (p ++ q) = true := by
  intro p
  induction p with
  | nil => intro q; simp [List.isPrefixOf]
  | cons c cs IH => intro q; simp [List.isPrefixOf, IH]

theorem listContains_pat_nil : ∀ l : List Char, listContains [] l = true := by
  intro l
  cases l <;> rfl

theorem listContains_mid : ∀ x p q : List Char, listContains p (x ++ (p ++ q)) = true := by
  intro x
  induction x with
  | nil =>
      intro p q
      cases p with
      | nil => exact listContains_pat_nil _
      | cons a as => simp [listContains, isPrefixOf_append_self]
  | cons c cs IH =>
      intro p q
      simp [listContains, IH p q]

theorem strIncludes_mid (a pat b : String) : strIncludes (a ++ (pat ++ b)) pat = true := by
  unfold strIncludes
  rw [String.data_append, String.data_append]
  exact listContains_mid a.data pat.data b.data

theorem multipleH1Issue_includes_count (k : Nat) :
    strIncludes (multipleH1Issue k) (toString k) = true := by
  unfold multipleH1Issue
  exact strIncludes_mid _ _ _

theorem skipIssues_cons2 (p c : HeadingRecord) (rest : List HeadingRecord) :
    skipIssues (p :: c :: rest) =
      (if c.level > p.level + 1 then [skippedIssue p.level c.level] else []) ++
        skipIssues (c :: rest) := rfl

theorem skipIssues_short (l : List HeadingRecord) (hl : l.length ≤ 1) :
    skipIssues l = [] := by
  match l with
  | [] => rfl
  | [_] => rfl
  | _ :: _ :: _ => simp at hl

theorem mem_skipIssues {s : String} :
    ∀ {l : List HeadingRecord}, s ∈ skipIssues l → ∃ p c, s = skippedIssue p c := by
  intro l
  induction l with
  | nil => intro hmem; simp [skipIssues] at hmem
  | cons a t IH =>
      cases t with
      | nil => intro hmem; simp [skipIssues] at hmem
      | cons b r =>
          intro hmem
          rw [skipIssues_cons2] at hmem
          rcases List.mem_append.mp hmem with hmem' | hmem'
          · refine ⟨a.level, b.level, ?_⟩
            by_cases hgt : b.level > a.level + 1
            · rw [if_pos hgt] at hmem'
              exact List.mem_singleton.mp hmem'
            · rw [if_neg hgt] at hmem'
              simp at hmem'
          · exact IH hmem'

theorem skipIssues_eq_filterMap :
    ∀ l : List HeadingRecord, skipIssues l = (l.zip l.tail).filterMap skipPair := by
  intro l
  induction l with
  | nil => rfl
  | cons a t IH =>
      cases t with
      | nil => rfl
      | cons b r =>
          rw [skipIssues_cons2, IH]
          show _ = List.filterMap skipPair ((a, b) :: (b :: r).zip (b :: r).tail)
          rw [List.filterMap_cons]
          unfold skipPair
          by_cases hgt : b.level > a.level + 1
          · rw [if_pos hgt, if_pos hgt]
            rfl
          · rw [if_neg hgt, if_neg hgt]
            rfl

theorem suggestStep_shape (acc : List HeadingRecord) (h : HeadingRecord) :
    ∃ x, suggestStep acc h = x :: acc ∨
      suggestStep acc h = x :: ⟨2, "Recent Articles"⟩ :: acc := by
  unfold suggestStep
  dsimp only
  split_ifs <;> first
    | exact ⟨_, Or.inl rfl⟩
    | exact ⟨_, Or.inr rfl⟩

theorem suggestStep_ne_nil (acc : List HeadingRecord) (h : HeadingRecord) :
    suggestStep acc h ≠ [] := by
  obtain ⟨x, hx | hx⟩ := suggestStep_shape acc h <;> simp [hx]

theorem suggestStep_append (acc : List HeadingRecord) (h : HeadingRecord) :
    ∃ l, suggestStep acc h = l ++ acc := by
  obtain ⟨x, hx | hx⟩ := suggestStep_shape acc h
  · exact ⟨[x], hx⟩
  · exact ⟨[x, ⟨2, "Recent Articles"⟩], hx⟩

theorem hasRA_step (acc : List HeadingRecord) (h : HeadingRecord)
    (ht : hasRecentArticlesSection acc = true) :
    hasRecentArticlesSection (suggestStep acc h) = true := by
  obtain ⟨l, hl⟩ := suggestStep_append acc h
  rw [hl]
  unfold hasRecentArticlesSection at ht ⊢
  rw [List.any_append, ht, Bool.or_true]

theorem hasRA_recent : hasRecentArticlesSection [⟨2, "Recent Articles"⟩] = true := by decide

theorem suggestStep_length (acc : List HeadingRecord) (h : HeadingRecord) :
    (suggestStep acc h).length = acc.length + 1 ∨
      ((suggestStep acc h).length = acc.length + 2 ∧
        hasRecentArticlesSection acc = false ∧
        hasRecentArticlesSection (suggestStep acc h) = true) := by
  unfold suggestStep
  dsimp only
  split_ifs with hsec hart hra
  · left; rfl
  · left; rfl
  · right
    refine ⟨rfl, ?_, ?_⟩
    · exact Bool.not_eq_true _ ▸ eq_false_of_ne_true hra
    · unfold hasRecentArticlesSection
      rw [List.any_cons, List.any_cons]
      have hmid : (strIncludes (toLowerCase "Recent Articles") "article" ||
          strIncludes (toLowerCase "Recent Articles") "blog" ||
          strIncludes (toLowerCase "Recent Articles") "post") = true := by decide
      simp [hmid]
  · left; rfl
  · left; rfl

theorem genLoop_nil (acc : List HeadingRecord) : genLoop acc [] = acc.reverse := rfl

theorem genLoop_cons (acc : List HeadingRecord) (h : HeadingRecord) (rest : List HeadingRecord) :
    genLoop acc (h :: rest) = genLoop (suggestStep acc h) rest := rfl

theorem genLoop_decompose :
    ∀ l acc : List HeadingRecord, ∃ m, genLoop acc l = (m ++ acc).reverse := by
  intro l
  induction l with
  | nil => intro acc; exact ⟨[], rfl⟩
  | cons h rest IH =>
      intro acc
      obtain ⟨l₁, hl₁⟩ := suggestStep_append acc h
      obtain ⟨m, hm⟩ := IH (suggestStep acc h)
      refine ⟨m ++ l₁, ?_⟩
      rw [genLoop_cons, hm, hl₁, List.append_assoc]

theorem genLoop_length_lower :
    ∀ l acc : List HeadingRecord, acc.length + l.length ≤ (genLoop acc l).length := by
  intro l
  induction l with
  | nil => intro acc; rw [genLoop_nil]; simp
  | cons h rest IH =>
      intro acc
      rw [genLoop_cons]
      have hstep : acc.length + 1 ≤ (suggestStep acc h).length := by
        obtain ⟨x, hx | hx⟩ := suggestStep_shape acc h <;> simp [hx]
      have := IH (suggestStep acc h)
      simp only [List.length_cons]
      omega

theorem genLoop_length_upper_done :
    ∀ l acc : List HeadingRecord, hasRecentArticlesSection acc = true →
      (genLoop acc l).length ≤ acc.length + l.length := by
  intro l
  induction l with
  | nil => intro acc _; rw [genLoop_nil]; simp
  | cons h rest IH =>
      intro acc hra
      rw [genLoop_cons]
      have hra' := hasRA_step acc h hra
      have := IH (suggestStep acc h) hra'
      rcases suggestStep_length acc h with hlen | ⟨_, hacc, _⟩
      · simp only [List.length_cons]; omega
      · rw [hacc] at hra; exact absurd hra (by simp)

theorem genLoop_length_upper :
    ∀ l acc : List HeadingRecord, (genLoop acc l).length ≤ acc.length + l.length + 1 := by
  intro l
  induction l with
  | nil => intro acc; rw [genLoop_nil]; simp
  | cons h rest IH =>
      intro acc
      rw [genLoop_cons]
      simp only [List.length_cons]
      rcases suggestStep_length acc h with hlen | ⟨hlen, _, hstep⟩
      · have := IH (suggestStep acc h)
        omega
      · have := genLoop_length_upper_done rest (suggestStep acc h) hstep
        omega

/-- The relation that actually holds between consecutive output
suggestions: the depth grows by at most one, except that the article/guide
branch can place a level-3 suggestion right after a level-1 one. -/
abbrev depthOk (a b : HeadingRecord) : Prop :=
  b.level ≤ a.level + 1 ∨
    (a.level = 1 ∧ b.level = 3 ∧
      isArticleOrGuide b.text = true ∧ isSectionTitle b.text = false)

theorem suggestStep_levels (acc : List HeadingRecord) (h : HeadingRecord)
    (hacc : ∀ y ∈ acc, 1 ≤ y.level) (hh : 1 ≤ h.level) :
    ∀ y ∈ suggestStep acc h, 1 ≤ y.level := by
  unfold suggestStep
  dsimp only
  split_ifs <;> intro y hy <;> simp only [List.mem_cons] at hy <;>
    rcases hy with rfl | hy <;> try rcases hy with rfl | hy
  all_goals first
    | exact hacc y hy
    | (dsimp only; omega)

theorem suggestStep_chain (p : HeadingRecord) (t : List HeadingRecord) (h : HeadingRecord)
    (hp : 1 ≤ p.level)
    (hc : List.Chain' (flip depthOk) (p :: t)) :
    List.Chain' (flip depthOk) (suggestStep (p :: t) h) := by
  unfold suggestStep
  dsimp only
  split_ifs with hsec hart hra
  · exact List.chain'_cons.mpr ⟨Or.inl (by dsimp only; omega), hc⟩
  · have hboth := hart
    rw [Bool.and_eq_true] at hboth
    obtain ⟨harticle, hple⟩ := hboth
    have hple' : p.level ≤ 2 := of_decide_eq_true hple
    refine List.chain'_cons.mpr ⟨?_, hc⟩
    have hcases : p.level = 1 ∨ p.level = 2 := by omega
    rcases hcases with h1 | h2
    · exact Or.inr ⟨h1, rfl, harticle, eq_false_of_ne_true hsec⟩
    · exact Or.inl (by dsimp only; omega)
  · refine List.chain'_cons.mpr ⟨Or.inl (by dsimp only; omega), ?_⟩
    exact List.chain'_cons.mpr ⟨Or.inl (by dsimp only; omega), hc⟩
  · exact List.chain'_cons.mpr ⟨Or.inl (by dsimp only; omega), hc⟩
  · exact List.chain'_cons.mpr ⟨Or.inl (by dsimp only; exact Nat.min_le_right _ _), hc⟩

theorem genLoop_chain :
    ∀ (l : List HeadingRecord) (p : HeadingRecord) (t : List HeadingRecord),
      1 ≤ p.level → (∀ x ∈ t, 1 ≤ x.level) → (∀ x ∈ l, 1 ≤ x.level) →
      List.Chain' (flip depthOk) (p :: t) →
      List.Chain' depthOk (genLoop (p :: t) l) := by
  intro l
  induction l with
  | nil =>
      intro p t _ _ _ hc
      rw [genLoop_nil]
      exact List.chain'_reverse.mpr hc
  | cons h rest IH =>
      intro p t hp ht hl hc
      rw [genLoop_cons]
      have hh : 1 ≤ h.level := hl h (List.mem_cons_self _ _)
      have hlv : ∀ y ∈ suggestStep (p :: t) h, 1 ≤ y.level := by
        refine suggestStep_levels (p :: t) h ?_ hh
        intro y hy
        rcases List.mem_cons.mp hy with he | hy'
        · rw [he]; exact hp
        · exact ht y hy'
      have hchain := suggestStep_chain p t h hp hc
      have hrest : ∀ x ∈ rest, 1 ≤ x.level := fun x hx => hl x (List.mem_cons_of_mem _ hx)
      obtain ⟨x, hx | hx⟩ := suggestStep_shape (p :: t) h
      · rw [hx] at hchain hlv ⊢
        refine IH x (p :: t) (hlv x (List.mem_cons_self _ _)) ?_ hrest hchain
        intro y hy
        rcases List.mem_cons.mp hy with he | hy'
        · rw [he]; exact hp
        · exact ht y hy'
      · rw [hx] at hchain hlv ⊢
        refine IH x (⟨2, "Recent Articles"⟩ :: p :: t)
          (hlv x (List.mem_cons_self _ _)) ?_ hrest hchain
        intro y hy
        exact hlv y (List.mem_cons_of_mem _ hy)

theorem suggestStepOpt_eq (p : HeadingRecord) (t : List HeadingRecord) (h : HeadingRecord) :
    suggestStepOpt (p :: t) h = some (suggestStep (p :: t) h) := by
  unfold suggestStepOpt suggestStep
  dsimp only [List.head?, List.headD]
  split_ifs <;> rfl

theorem genLoopOpt_cons (acc : List HeadingRecord) (h : HeadingRecord)
    (rest : List HeadingRecord) :
    genLoopOpt acc (h :: rest) =
      match suggestStepOpt acc h with
      | some acc' => genLoopOpt acc' rest
      | none => none := rfl

theorem genLoopOpt_eq :
    ∀ (l acc : List HeadingRecord), acc ≠ [] → genLoopOpt acc l = some (genLoop acc l) := by
  intro l
  induction l with
  | nil => intro acc _; rfl
  | cons h rest IH =>
      intro acc hne
      obtain ⟨p, t, rfl⟩ := List.exists_cons_of_ne_nil hne
      rw [genLoopOpt_cons, suggestStepOpt_eq]
      rw [genLoop_cons]
      exact IH (suggestStep (p :: t) h) (suggestStep_ne_nil _ _)

theorem generateImprovedSuggestionsOpt_eq (hs : List HeadingRecord) :
    generateImprovedSuggestionsOpt hs = some (generateImprovedSuggestions hs) := by
  cases hs with
  | nil => rfl
  | cons h0 rest => exact genLoopOpt_eq rest [⟨1, h0.text⟩] (by simp)

theorem skipLoopOpt_stop (hs : List HeadingRecord) (i : Nat)
    (hge : hs.length ≤ i) (h1 : 1 ≤ i) :
    skipLoopOpt hs i = some (skipIssues (hs.drop (i - 1))) := by
  rw [skipLoopOpt]
  rw [dif_neg (by omega)]
  rw [skipIssues_short (hs.drop (i - 1)) (by rw [List.length_drop]; omega)]

theorem skipLoopOpt_eq :
    ∀ (n : Nat) (hs : List HeadingRecord) (i : Nat), hs.length ≤ i + n → 1 ≤ i →
      skipLoopOpt hs i = some (skipIssues (hs.drop (i - 1))) := by
  intro n
  induction n with
  | zero => intro hs i hle h1; exact skipLoopOpt_stop hs i (by omega) h1
  | succ m IH =>
      intro hs i hle h1
      by_cases hlt : i < hs.length
      · have hprev : i - 1 < hs.length := by omega
        have hd1 : hs.drop (i - 1) = hs[i - 1] :: hs.drop i := by
          have hdd := List.drop_eq_getElem_cons hprev
          rwa [show i - 1 + 1 = i by omega] at hdd
        have hd2 : hs.drop i = hs[i] :: hs.drop (i + 1) := List.drop_eq_getElem_cons hlt
        have hstep : skipLoopOpt hs i =
            some ((if hs[i].level > hs[i - 1].level + 1
                   then [skippedIssue hs[i - 1].level hs[i].level] else []) ++
              skipIssues (hs.drop i)) := by
          rw [skipLoopOpt, dif_pos hlt, List.getElem?_eq_getElem hlt,
            List.getElem?_eq_getElem hprev, IH hs (i + 1) (by omega) (by omega),
            show i + 1 - 1 = i by omega]
        rw [hstep, hd1, hd2, skipIssues_cons2]
      · exact skipLoopOpt_stop hs i (by omega) h1

theorem analyze_cons (h0 : HeadingRecord) (rest : List HeadingRecord) :
    analyzeHeadingIssues (h0 :: rest) =
      (if h1Count (h0 :: rest) == 0 then [missingH1Issue]
       else if h1Count (h0 :: rest) > 1 then [multipleH1Issue (h1Count (h0 :: rest))]
       else []) ++
      skipIssues (h0 :: rest) ++
      (if h0.level ≠ 1 then [startIssue] else []) ++
      (if ((h0 :: rest).filter fun h => h.level == 3).length > 0 ∧
            ((h0 :: rest).filter fun h => h.level == 2).length < 2
       then [orgIssue] else []) := rfl

theorem analyzeHeadingIssuesOpt_eq (hs : List HeadingRecord) :
    analyzeHeadingIssuesOpt hs = some (analyzeHeadingIssues hs) := by
  cases hs with
  | nil => rfl
  | cons h0 rest =>
      unfold analyzeHeadingIssuesOpt
      rw [if_neg (by simp)]
      rw [skipLoopOpt_eq (h0 :: rest).length (h0 :: rest) 1 (by omega) (by omega)]
      rw [show (1 : Nat) - 1 = 0 from rfl, List.drop_zero]
      rw [if_pos (by simp : 0 < (h0 :: rest).length)]
      rw [analyze_cons]
      simp only [List.getElem?_cons_zero]

/-- Claim C1 counterexample: on the input (1 Home, 2 Blog Posts, 1 Plain,
3 How to Guide) the article/guide branch emits a level-3 suggestion
directly after a level-1 one, and that element is not produced by the
section branch, the footer branch, or the synthetic insertion, so the
monotonic-depth invariant fails outside the claimed exceptions. -/
theorem claim_C1_counterexample :
    generateImprovedSuggestions
        [⟨1, "Home"⟩, ⟨2, "Blog Posts"⟩, ⟨1, "Plain"⟩, ⟨3, "How to Guide"⟩] =
      [⟨1, "Home"⟩, ⟨2, "Blog Posts"⟩, ⟨1, "Plain"⟩, ⟨3, "How to Guide"⟩] ∧
    isSectionTitle "How to Guide" = false ∧
    isFooterOrCallToAction "How to Guide" = false ∧
    "How to Guide" ≠ "Recent Articles" ∧
    ¬ (3 : Nat) ≤ 1 + 1 :=
  ⟨by decide, by decide, by decide, by decide, by decide⟩

/-- Claim C1 (amended): for every non-empty heading sequence with levels
in [1,6], consecutive output elements of `suggest` either grow in level by
at most one, or form a level-1-then-level-3 pair whose second element was
produced by the article/guide branch (its text matches the article/guide
pattern and not the section pattern); the article/guide branch is thus a
further exception to the monotonic-depth invariant besides the
forced-level-2 branches. -/
theorem claim_C1_amended (h0 : HeadingRecord) (rest : List HeadingRecord)
    (hlv : ∀ x ∈ h0 :: rest, 1 ≤ x.level ∧ x.level ≤ 6) :
    List.Chain' depthOk (generateImprovedSuggestions (h0 :: rest)) :=
  genLoop_chain rest ⟨1, h0.text⟩ [] (le_refl 1) (by simp)
    (fun x hx => (hlv x (List.mem_cons_of_mem _ hx)).1) (List.chain'_singleton _)

theorem claim_C1_amended_witness :
    List.Chain' depthOk (generateImprovedSuggestions [⟨1, "Home"⟩, ⟨2, "Blog Posts"⟩]) :=
  claim_C1_amended ⟨1, "Home"⟩ [⟨2, "Blog Posts"⟩] (by decide)

/-- Claim C2: each record at index at least 1 is classified by exactly one
branch in fixed priority order (section pattern forces level 2; else
article pattern with previous suggestion level at most 2 gives level 3
with a synthetic "Recent Articles" level-2 suggestion inserted just before
it when no prior level-2 suggestion mentions article/blog/post; else
footer pattern forces level 2; else the default level is
min(original, previous + 1)), and the three-record example maps
"Blog Posts" to level 2 and "How to Guide 2024" to level 3 with no
synthetic insertion. -/
theorem claim_C2 :
    (∀ (p : HeadingRecord) (t : List HeadingRecord) (h : HeadingRecord),
      (isSectionTitle h.text = true →
        suggestStep (p :: t) h = ⟨2, h.text⟩ :: p :: t) ∧
      (isSectionTitle h.text = false → isArticleOrGuide h.text = true → p.level ≤ 2 →
        suggestStep (p :: t) h =
          ⟨3, h.text⟩ ::
            (if hasRecentArticlesSection (p :: t) then p :: t
             else ⟨2, "Recent Articles"⟩ :: p :: t)) ∧
      (isSectionTitle h.text = false →
        (isArticleOrGuide h.text = false ∨ 2 < p.level) →
        isFooterOrCallToAction h.text = true →
        suggestStep (p :: t) h = ⟨2, h.text⟩ :: p :: t) ∧
      (isSectionTitle h.text = false →
        (isArticleOrGuide h.text = false ∨ 2 < p.level) →
        isFooterOrCallToAction h.text = false →
        suggestStep (p :: t) h = ⟨min h.level (p.level + 1), h.text⟩ :: p :: t)) ∧
    generateImprovedSuggestions [⟨1, "Welcome"⟩, ⟨2, "Blog Posts"⟩, ⟨3, "How to Guide 2024"⟩] =
      [⟨1, "Welcome"⟩, ⟨2, "Blog Posts"⟩, ⟨3, "How to Guide 2024"⟩] := by
  constructor
  · intro p t h
    refine ⟨?_, ?_, ?_, ?_⟩
    · intro hsec
      unfold suggestStep
      dsimp only [List.headD]
      rw [if_pos hsec]
    · intro hsec hart hple
      unfold suggestStep
      dsimp only [List.headD]
      rw [if_neg (by simp [hsec]), if_pos (by rw [hart]; simp [hple])]
    · intro hsec hartor hfoot
      have hcond : (isArticleOrGuide h.text && decide (p.level ≤ 2)) = false := by
        rcases hartor with ha | hp
        · rw [ha]; rfl
        · have hnle : ¬ p.level ≤ 2 := by omega
          simp [hnle]
      unfold suggestStep
      dsimp only [List.headD]
      rw [if_neg (by simp [hsec]), if_neg (by simp [hcond]), if_pos hfoot]
    · intro hsec hartor hfoot
      have hcond : (isArticleOrGuide h.text && decide (p.level ≤ 2)) = false := by
        rcases hartor with ha | hp
        · rw [ha]; rfl
        · have hnle : ¬ p.level ≤ 2 := by omega
          simp [hnle]
      unfold suggestStep
      dsimp only [List.headD]
      rw [if_neg (by simp [hsec]), if_neg (by simp [hcond]), if_neg (by simp [hfoot])]
  · decide

theorem claim_C2_witness :
    isSectionTitle "Latest News" = true ∧
    suggestStep [⟨1, "Home"⟩] ⟨4, "Latest News"⟩ = [⟨2, "Latest News"⟩, ⟨1, "Home"⟩] :=
  ⟨by decide, (claim_C2.1 ⟨1, "Home"⟩ [] ⟨4, "Latest News"⟩).1 (by decide)⟩

/-- Claim C3: for every non-empty input, the analyzer counts level-1
records; zero yields the missing-H1 issue, exactly one yields neither the
missing-H1 issue nor any multiple-H1 issue, and two or more yields the
multiple-H1 issue carrying the exact count in its text. -/
theorem claim_C3 (hs : List HeadingRecord) (hne : hs ≠ []) :
    (h1Count hs = 0 → missingH1Issue ∈ analyzeHeadingIssues hs) ∧
    (h1Count hs = 1 →
      missingH1Issue ∉ analyzeHeadingIssues hs ∧
      ∀ k, multipleH1Issue k ∉ analyzeHeadingIssues hs) ∧
    (2 ≤ h1Count hs →
      multipleH1Issue (h1Count hs) ∈ analyzeHeadingIssues hs ∧
      strIncludes (multipleH1Issue (h1Count hs)) (toString (h1Count hs)) = true) := by
  obtain ⟨h0, rest, rfl⟩ := List.exists_cons_of_ne_nil hne
  refine ⟨?_, ?_, ?_⟩
  · intro hz
    rw [analyze_cons, if_pos (by simp [hz])]
    simp
  · intro h1
    have hne0 : ¬ ((h1Count (h0 :: rest) == 0) = true) := by simp [h1]
    have hng : ¬ (h1Count (h0 :: rest) > 1) := by omega
    rw [analyze_cons, if_neg hne0, if_neg hng]
    constructor
    · intro hmem
      simp only [List.nil_append, List.mem_append] at hmem
      rcases hmem with (hmem | hmem) | hmem
      · obtain ⟨p, c, e⟩ := mem_skipIssues hmem
        exact skipped_ne_missing p c e.symm
      · split at hmem
        · exact absurd (List.mem_singleton.mp hmem) (by decide)
        · simp at hmem
      · split at hmem
        · exact absurd (List.mem_singleton.mp hmem) (by decide)
        · simp at hmem
    · intro k hmem
      simp only [List.nil_append, List.mem_append] at hmem
      rcases hmem with (hmem | hmem) | hmem
      · obtain ⟨p, c, e⟩ := mem_skipIssues hmem
        exact multipleH1_ne_skipped k p c e
      · split at hmem
        · exact multipleH1_ne_start k (List.mem_singleton.mp hmem)
        · simp at hmem
      · split at hmem
        · exact multipleH1_ne_org k (List.mem_singleton.mp hmem)
        · simp at hmem
  · intro h2
    have hne0 : ¬ ((h1Count (h0 :: rest) == 0) = true) := by
      simp only [beq_iff_eq]
      omega
    have hg : h1Count (h0 :: rest) > 1 := by omega
    rw [analyze_cons, if_neg hne0, if_pos hg]
    exact ⟨by simp, multipleH1Issue_includes_count _⟩

theorem claim_C3_witness :
    missingH1Issue ∈ analyzeHeadingIssues [⟨2, "a"⟩] ∧
    multipleH1Issue 2 ∈ analyzeHeadingIssues [⟨1, "a"⟩, ⟨1, "b"⟩] :=
  ⟨(claim_C3 [⟨2, "a"⟩] (by decide)).1 (by decide),
   ((claim_C3 [⟨1, "a"⟩, ⟨1, "b"⟩] (by decide)).2.2 (by decide)).1⟩

/-- Claim C4: the analyzer's output decomposes around a block holding
exactly one skip issue per adjacent pair whose current level exceeds the
previous level plus one (in document order, built by `skipPair` which
names both levels and the expected level), and no skip issue occurs
anywhere else in the output. -/
theorem claim_C4 (hs : List HeadingRecord) (hne : hs ≠ []) :
    ∃ pre post,
      analyzeHeadingIssues hs =
        pre ++ ((hs.zip hs.tail).filterMap skipPair ++ post) ∧
      (∀ p c, skippedIssue p c ∉ pre) ∧
      (∀ p c, skippedIssue p c ∉ post) := by
  obtain ⟨h0, rest, rfl⟩ := List.exists_cons_of_ne_nil hne
  refine ⟨(if h1Count (h0 :: rest) == 0 then [missingH1Issue]
           else if h1Count (h0 :: rest) > 1 then [multipleH1Issue (h1Count (h0 :: rest))]
           else []),
          (if h0.level ≠ 1 then [startIssue] else []) ++
          (if ((h0 :: rest).filter fun h => h.level == 3).length > 0 ∧
                ((h0 :: rest).filter fun h => h.level == 2).length < 2
           then [orgIssue] else []), ?_, ?_, ?_⟩
  · rw [analyze_cons, ← skipIssues_eq_filterMap]
    simp [List.append_assoc]
  · intro p c hmem
    split at hmem
    · exact skipped_ne_missing p c (List.mem_singleton.mp hmem)
    · split at hmem
      · exact Ne.symm (multipleH1_ne_skipped _ p c) (List.mem_singleton.mp hmem)
      · simp at hmem
  · intro p c hmem
    rcases List.mem_append.mp hmem with hmem' | hmem' <;> split at hmem'
    · exact skipped_ne_start p c (List.mem_singleton.mp hmem')
    · simp at hmem'
    · exact skipped_ne_org p c (List.mem_singleton.mp hmem')
    · simp at hmem'

theorem claim_C4_witness :
    ([⟨1, "a"⟩, ⟨4, "b"⟩] : List HeadingRecord) ≠ [] ∧
    ∃ pre post,
      analyzeHeadingIssues [⟨1, "a"⟩, ⟨4, "b"⟩] =
        pre ++ ((([⟨1, "a"⟩, ⟨4, "b"⟩] : List HeadingRecord).zip
          ([⟨1, "a"⟩, ⟨4, "b"⟩] : List HeadingRecord).tail).filterMap skipPair ++ post) ∧
      (∀ p c, skippedIssue p c ∉ pre) ∧
      (∀ p c, skippedIssue p c ∉ post) :=
  ⟨by decide, claim_C4 [⟨1, "a"⟩, ⟨4, "b"⟩] (by decide)⟩

/-- Claim C5 counterexample: the bootstrap texts carry the "(H1)", "(H2)"
and "(H3)" suffixes, so the outline claimed with the bare texts is not the
one returned for the empty sequence. -/
theorem claim_C5_counterexample :
    generateImprovedSuggestions [] ≠
      [⟨1, "Add a main page title"⟩, ⟨2, "Add section headings"⟩,
       ⟨3, "Add subsection headings as needed"⟩] := by decide

/-- Claim C5 (amended): for the empty heading sequence, `suggest` returns
exactly the fixed three-element bootstrap outline: level 1 with text
"Add a main page title (H1)", level 2 with text "Add section headings
(H2)", level 3 with text "Add subsection headings (H3) as needed". -/
theorem claim_C5_amended :
    generateImprovedSuggestions [] =
      [⟨1, "Add a main page title (H1)"⟩, ⟨2, "Add section headings (H2)"⟩,
       ⟨3, "Add subsection headings (H3) as needed"⟩] := rfl

/-- Claim C6: for every non-empty input, the first output suggestion has
level 1 and carries the first input record's text verbatim, whatever that
record's original level was. -/
theorem claim_C6 (h0 : HeadingRecord) (rest : List HeadingRecord) :
    (generateImprovedSuggestions (h0 :: rest)).head? = some ⟨1, h0.text⟩ := by
  obtain ⟨m, hm⟩ := genLoop_decompose rest [⟨1, h0.text⟩]
  show (genLoop [⟨1, h0.text⟩] rest).head? = some ⟨1, h0.text⟩
  rw [hm, List.reverse_append]
  rfl

/-- Claim C7: for the empty heading sequence the analyzer returns exactly
the single no-headings issue and nothing else. -/
theorem claim_C7 :
    analyzeHeadingIssues [] = ["No heading tags found on the page"] := rfl

/-- Claim C8: `analyze` and `suggest` are total on valid heading records:
the variants in which every array access that could throw in JavaScript
is explicit (returning `none` on an undefined dereference) succeed and
return exactly the values of the direct embeddings. -/
theorem claim_C8 (hs : List HeadingRecord)
    (hvalid : ∀ x ∈ hs, 1 ≤ x.level ∧ x.level ≤ 6 ∧ x.text ≠ "") :
    analyzeHeadingIssuesOpt hs = some (analyzeHeadingIssues hs) ∧
    generateImprovedSuggestionsOpt hs = some (generateImprovedSuggestions hs) :=
  ⟨analyzeHeadingIssuesOpt_eq hs, generateImprovedSuggestionsOpt_eq hs⟩

theorem claim_C8_witness :
    analyzeHeadingIssuesOpt [⟨1, "Title"⟩] = some (analyzeHeadingIssues [⟨1, "Title"⟩]) ∧
    generateImprovedSuggestionsOpt [⟨1, "Title"⟩] =
      some (generateImprovedSuggestions [⟨1, "Title"⟩]) :=
  claim_C8 [⟨1, "Title"⟩] (by decide)

/-- Claim C9: for every non-empty input of length n the output of
`suggest` has length n or n + 1, and once the output so far contains a
level-2 suggestion mentioning article/blog/post, every further step keeps
that flag set and appends exactly one element, so no second synthetic
"Recent Articles" entry is ever inserted. -/
theorem claim_C9 (h0 : HeadingRecord) (rest : List HeadingRecord) :
    ((generateImprovedSuggestions (h0 :: rest)).length = (h0 :: rest).length ∨
      (generateImprovedSuggestions (h0 :: rest)).length = (h0 :: rest).length + 1) ∧
    (∀ acc h, hasRecentArticlesSection acc = true →
      hasRecentArticlesSection (suggestStep acc h) = true ∧
      (suggestStep acc h).length = acc.length + 1) := by
  constructor
  · have hlow := genLoop_length_lower rest [⟨1, h0.text⟩]
    have hup := genLoop_length_upper rest [⟨1, h0.text⟩]
    show (genLoop [⟨1, h0.text⟩] rest).length = (h0 :: rest).length ∨
      (genLoop [⟨1, h0.text⟩] rest).length = (h0 :: rest).length + 1
    simp only [List.length_cons, List.length_singleton, List.length_nil] at hlow hup ⊢
    omega
  · intro acc h hra
    rcases suggestStep_length acc h with hl | ⟨_, hacc, _⟩
    · exact ⟨hasRA_step acc h hra, hl⟩
    · rw [hacc] at hra
      exact absurd hra (by simp)

theorem claim_C9_witness :
    ((generateImprovedSuggestions [⟨1, "a"⟩]).length = 1 ∨
      (generateImprovedSuggestions [⟨1, "a"⟩]).length = 1 + 1) ∧
    (hasRecentArticlesSection (suggestStep [⟨2, "Our Blog"⟩] ⟨2, "x"⟩) = true ∧
      (suggestStep [⟨2, "Our Blog"⟩] ⟨2, "x"⟩).length = 2) :=
  ⟨(claim_C9 ⟨1, "a"⟩ []).1,
   (claim_C9 ⟨1, "a"⟩ []).2 [⟨2, "Our Blog"⟩] ⟨2, "x"⟩ (by decide)⟩

/-- Claim C10: the generator does not enforce a single level-1 heading:
there is a valid input (all levels in [1,6]) whose improved outline has
more than one level-1 suggestion, because a level-1 record matching no
pattern takes the default branch with min(1, previous + 1) = 1. -/
theorem claim_C10 :
    ∃ hs : List HeadingRecord, hs ≠ [] ∧
      (∀ x ∈ hs, 1 ≤ x.level ∧ x.level ≤ 6) ∧
      1 < ((generateImprovedSuggestions hs).filter fun s => s.level == 1).length :=
  ⟨[⟨1, "Home"⟩, ⟨1, "Portfolio"⟩], by decide, by decide, by decide⟩
